import Mathlib

/-!
# Verification of the Z.AI chat proxy worker (`src/worker.ts`)

This file gives a shallow embedding of the worker's algorithmic core and
proves the frozen claims about it:

* the SSE stream translator inside `chatStream` (line buffering, `data: `
  line handling, `[DONE]` sentinel, malformed-JSON skipping, transcript
  recording);
* the request signer `generateZaSignature` (time-bucketed HMAC key,
  canonical signing string);
* the auth middleware `validateApiKey`;
* the JWT-style identity decoding in `initializeZChat`;
* the non-streaming OpenAI-compatible response assembly.

Modelling conventions:

* Upstream chunks are modelled as `List Char` (the text produced by
  `TextDecoder.decode(value, {stream:true})`); `TextDecoder`'s handling of
  byte boundaries inside a UTF-8 code point happens upstream of the
  translator logic and is not re-modelled.
* `JSON.parse` is modelled by an executable JSON parser (`parseJson`)
  over a `Json` value type, including JavaScript truthiness (`truthy`),
  property access (`Json.getField`, returning `none` for `undefined`),
  optional chaining (`optChain`) and string coercion (`jsToString`).
* `crypto.subtle`'s raw HMAC-SHA256 primitive is a parameter
  (`hmacRaw : String → String → List Nat`, a byte list digest); the
  worker's own wrapper `generateHmacSignature` (hex encoding) and
  `base64Encode` (`btoa(unescape(encodeURIComponent(s)))`, i.e. base64 of
  the UTF-8 bytes) are modelled concretely.
* `Date.now()` and the random v4 request id are injected as parameters,
  as the spec itself requires for testing.
-/

namespace ZaiProxy

/-! ## JavaScript string/whitespace helpers -/

/-- JSON insignificant whitespace (RFC 8259): space, tab, LF, CR. -/
def isJsonWs (c : Char) : Bool :=
  c = ' ' || c = '\t' || c = '\n' || c = '\r'

/-- Skip JSON whitespace. -/
def skipWs (cs : List Char) : List Char :=
  cs.dropWhile isJsonWs

/-- Whitespace stripped by JavaScript `String.prototype.trim` (the ASCII
part; the exotic Unicode space code points do not occur in the claims). -/
def isJsTrimWs (c : Char) : Bool :=
  c = ' ' || c = '\t' || c = '\n' || c = '\r' || c = '\x0b' || c = '\x0c'

/-- Model of `s.trim()` on a character list. -/
def jsTrim (s : List Char) : List Char :=
  ((s.dropWhile isJsTrimWs).reverse.dropWhile isJsTrimWs).reverse

/-- Model of `s.trim()` on a `String`. -/
def jsTrimStr (s : String) : String :=
  String.mk (jsTrim s.data)

/-! ## JSON values (the result of `JSON.parse`) -/

/-- JSON values. Numbers keep their source lexeme: no claim depends on
numeric values beyond zero-ness, and this avoids floating point. -/
inductive Json where
  | null
  | bool (b : Bool)
  | num (raw : String)
  | str (s : String)
  | arr (elems : List Json)
  | obj (fields : List (String × Json))

/-- Property access `j.k`: defined (`some`) only on objects; for duplicate
keys the last occurrence wins, as in a JavaScript object literal. `none`
models `undefined`. -/
def Json.getField (j : Json) (k : String) : Option Json :=
  match j with
  | .obj fields => fields.foldl (fun acc p => if p.1 = k then some p.2 else acc) none
  | _ => none

/-- Is the numeric lexeme a zero value (`0`, `-0.00e5`, ...)? -/
def numIsZero (raw : String) : Bool :=
  let mantissa := (raw.data.filter (fun c => c ≠ '-' && c ≠ '+' && c ≠ '.')).takeWhile
    (fun c => c ≠ 'e' && c ≠ 'E')
  mantissa.all (fun c => c = '0')

/-- JavaScript truthiness of a parsed JSON value. -/
def truthy : Json → Bool
  | .null => false
  | .bool b => b
  | .num raw => !numIsZero raw
  | .str s => !s.isEmpty
  | .arr _ => true
  | .obj _ => true

mutual

/-- JavaScript `String(v)` for parsed JSON values (`+=` / template
coercion). Arrays stringify as their elements joined by `,` with `null`
becoming empty; objects as `[object Object]`. -/
def jsToString : Json → String
  | .null => "null"
  | .bool b => if b then "true" else "false"
  | .num raw => raw
  | .str s => s
  | .arr xs => String.intercalate "," (jsToStringArr xs)
  | .obj _ => "[object Object]"

def jsToStringArr : List Json → List String
  | [] => []
  | .null :: xs => "" :: jsToStringArr xs
  | x :: xs => jsToString x :: jsToStringArr xs

end

/-! ## `JSON.parse` -/

/-- Parse the body of a JSON string literal (after the opening quote),
returning the characters and the remaining input. -/
def parseStringChars : List Char → Option (List Char × List Char)
  | [] => none
  | '"' :: rest => some ([], rest)
  | '\\' :: e :: rest =>
    match e with
    | '"' => (parseStringChars rest).map (fun p => ('"' :: p.1, p.2))
    | '\\' => (parseStringChars rest).map (fun p => ('\\' :: p.1, p.2))
    | '/' => (parseStringChars rest).map (fun p => ('/' :: p.1, p.2))
    | 'b' => (parseStringChars rest).map (fun p => ('\x08' :: p.1, p.2))
    | 'f' => (parseStringChars rest).map (fun p => ('\x0c' :: p.1, p.2))
    | 'n' => (parseStringChars rest).map (fun p => ('\n' :: p.1, p.2))
    | 'r' => (parseStringChars rest).map (fun p => ('\r' :: p.1, p.2))
    | 't' => (parseStringChars rest).map (fun p => ('\t' :: p.1, p.2))
    | 'u' =>
      match rest with
      | h1 :: h2 :: h3 :: h4 :: rest2 =>
        if isHexDigitChar h1 && isHexDigitChar h2 && isHexDigitChar h3 && isHexDigitChar h4 then
          let code := (hexVal h1) * 4096 + (hexVal h2) * 256 + (hexVal h3) * 16 + hexVal h4
          (parseStringChars rest2).map (fun p => (Char.ofNat code :: p.1, p.2))
        else none
      | _ => none
    | _ => none
  | c :: rest =>
    if c.toNat < 0x20 then none
    else (parseStringChars rest).map (fun p => (c :: p.1, p.2))
where
  /-- Is `c` a hexadecimal digit? -/
  isHexDigitChar (c : Char) : Bool :=
    c.isDigit || ('a' ≤ c && c ≤ 'f') || ('A' ≤ c && c ≤ 'F')
  /-- Value of a hex digit character. -/
  hexVal (c : Char) : Nat :=
    if c.isDigit then c.toNat - '0'.toNat
    else if 'a' ≤ c then c.toNat - 'a'.toNat + 10
    else c.toNat - 'A'.toNat + 10

/-- Parse a JSON number starting at `cs` (which must start with `-` or a
digit); returns the raw lexeme. -/
def parseNumberFrom (cs : List Char) : Option (Json × List Char) :=
  let (sign, cs1) :=
    match cs with
    | '-' :: r => (['-'], r)
    | _ => (([] : List Char), cs)
  match cs1 with
  | '0' :: r =>
    let (frac, r2) := parseFrac r
    match frac with
    | none => none
    | some fracCs =>
      match parseExp r2 with
      | none => none
      | some (expCs, r3) => some (.num (String.mk (sign ++ ['0'] ++ fracCs ++ expCs)), r3)
  | c :: _ =>
    if c.isDigit then
      let intCs := cs1.takeWhile Char.isDigit
      let r := cs1.dropWhile Char.isDigit
      let (frac, r2) := parseFrac r
      match frac with
      | none => none
      | some fracCs =>
        match parseExp r2 with
        | none => none
        | some (expCs, r3) => some (.num (String.mk (sign ++ intCs ++ fracCs ++ expCs)), r3)
    else none
  | [] => none
where
  /-- Optional fraction part; `none` means a malformed fraction. -/
  parseFrac : List Char → Option (List Char) × List Char
    | '.' :: r =>
      let ds := r.takeWhile Char.isDigit
      if ds.isEmpty then (none, r) else (some ('.' :: ds), r.dropWhile Char.isDigit)
    | r => (some [], r)
  /-- Optional exponent part; `none` means a malformed exponent. -/
  parseExp (r : List Char) : Option (List Char × List Char) :=
    match r with
    | e :: rest =>
      if e = 'e' || e = 'E' then
        let (sgn, rest1) :=
          match rest with
          | '+' :: r1 => (['+'], r1)
          | '-' :: r1 => (['-'], r1)
          | _ => (([] : List Char), rest)
        let ds := rest1.takeWhile Char.isDigit
        if ds.isEmpty then none
        else some (e :: sgn ++ ds, rest1.dropWhile Char.isDigit)
      else some ([], r)
    | [] => some ([], [])

mutual

/-- Parse one JSON value (fuel-based recursion; `parseJson` supplies
enough fuel for any input). -/
def parseValue (fuel : Nat) (cs : List Char) : Option (Json × List Char) :=
  match fuel with
  | 0 => none
  | f + 1 =>
    match skipWs cs with
    | 'n' :: 'u' :: 'l' :: 'l' :: rest => some (.null, rest)
    | 't' :: 'r' :: 'u' :: 'e' :: rest => some (.bool true, rest)
    | 'f' :: 'a' :: 'l' :: 's' :: 'e' :: rest => some (.bool false, rest)
    | '"' :: rest =>
      match parseStringChars rest with
      | some (s, r) => some (.str (String.mk s), r)
      | none => none
    | '[' :: rest =>
      (match skipWs rest with
      | ']' :: r2 => some (.arr [], r2)
      | _ =>
        match parseValue f rest with
        | some (v, r2) =>
          match parseArrayTail f [v] r2 with
          | some (vs, r3) => some (.arr vs, r3)
          | none => none
        | none => none)
    | '{' :: rest =>
      (match skipWs rest with
      | '}' :: r2 => some (.obj [], r2)
      | _ =>
        match parseMember f rest with
        | some (kv, r2) =>
          match parseMembersTail f [kv] r2 with
          | some (kvs, r3) => some (.obj kvs, r3)
          | none => none
        | none => none)
    | c :: rest =>
      if c = '-' || c.isDigit then parseNumberFrom (c :: rest) else none
    | [] => none

/-- Parse the continuation of an array after at least one element. -/
def parseArrayTail (fuel : Nat) (acc : List Json) (cs : List Char) :
    Option (List Json × List Char) :=
  match fuel with
  | 0 => none
  | f + 1 =>
    match skipWs cs with
    | ',' :: rest =>
      match parseValue f rest with
      | some (v, r2) => parseArrayTail f (acc ++ [v]) r2
      | none => none
    | ']' :: rest => some (acc, rest)
    | _ => none

/-- Parse one `"key": value` object member. -/
def parseMember (fuel : Nat) (cs : List Char) : Option ((String × Json) × List Char) :=
  match fuel with
  | 0 => none
  | f + 1 =>
    match skipWs cs with
    | '"' :: rest =>
      match parseStringChars rest with
      | some (k, r2) =>
        (match skipWs r2 with
        | ':' :: r3 =>
          match parseValue f r3 with
          | some (v, r4) => some ((String.mk k, v), r4)
          | none => none
        | _ => none)
      | none => none
    | _ => none

/-- Parse the continuation of an object after at least one member. -/
def parseMembersTail (fuel : Nat) (acc : List (String × Json)) (cs : List Char) :
    Option (List (String × Json) × List Char) :=
  match fuel with
  | 0 => none
  | f + 1 =>
    match skipWs cs with
    | ',' :: rest =>
      match parseMember f rest with
      | some (kv, r2) => parseMembersTail f (acc ++ [kv]) r2
      | none => none
    | '}' :: rest => some (acc, rest)
    | _ => none

end

/-- Model of `JSON.parse`: one JSON value, optionally surrounded by whitespace;
anything else (including trailing garbage) fails. -/
def parseJson (s : String) : Option Json :=
  match parseValue (s.data.length + 1) s.data with
  | some (j, rest) => if skipWs rest = [] then some j else none
  | none => none

/-! ## Delta extraction (`chatStream`'s per-line JSON handling)

Source (`src/worker.ts:432-448`):
```
const dataJson = JSON.parse(dataStr);
if (dataJson.data && dataJson.data.delta_content) {
  const chunk = dataJson.data.delta_content;
  fullAssistantContent += chunk; yield chunk;
} else if (dataJson.choices) {
  const chunk = dataJson.choices[0]?.delta?.content || "";
  if (chunk) { fullAssistantContent += chunk; yield chunk; }
}
```
Property access on `null` throws a `TypeError`, which the surrounding
`try` catches, so those paths skip the line, same as a missing field. -/

/-- JavaScript `v[0]`: array head, first character of a string, or the
`"0"` property of an object; `undefined` (`none`) otherwise. -/
def index0 : Json → Option Json
  | .arr es => es.head?
  | .str s => if s.isEmpty then none else some (.str (String.mk [s.data.headD ' ']))
  | .obj fields => Json.getField (.obj fields) "0"
  | _ => none

/-- Optional chaining `o?.k`: `undefined`/`null` receivers short-circuit
to `undefined`; otherwise plain property access. -/
def optChain (o : Option Json) (k : String) : Option Json :=
  match o with
  | none => none
  | some .null => none
  | some j => j.getField k

/-- The `else if (dataJson.choices)` branch. -/
def extractChoices (dataJson : Json) : Option String :=
  match dataJson.getField "choices" with
  | some c =>
    if truthy c then
      match optChain (optChain (index0 c) "delta") "content" with
      | some v => if truthy v then some (jsToString v) else none
      | none => none
    else none
  | none => none

/-- The delta (if any) emitted for one parsed `data: ` payload. -/
def extractDelta (dataJson : Json) : Option String :=
  match dataJson with
  | .null => none
  | _ =>
    match dataJson.getField "data" with
    | some d =>
      if truthy d then
        match d.getField "delta_content" with
        | some dc => if truthy dc then some (jsToString dc) else extractChoices dataJson
        | none => extractChoices dataJson
      else extractChoices dataJson
    | none => extractChoices dataJson

/-! ## The stream translator read loop (`src/worker.ts:410-458`) -/

/-- Mutable state of `chatStream`'s read loop: the line-residue `buffer`,
the deltas emitted so far (in order; `fullAssistantContent` is their
concatenation) and whether the `[DONE]` sentinel ended the generator. -/
structure StreamState where
  buffer : List Char
  emitted : List String
  doneFlag : Bool
deriving DecidableEq

/-- The state at generator start. -/
def initState : StreamState :=
  ⟨[], [], false⟩

/-- Split on `'\n'`, like `buffer.split('\n')` (always returns at least
one segment; `cur` is the text to the left of the input). -/
def splitLinesAux (cur : List Char) : List Char → List (List Char)
  | [] => [cur]
  | c :: rest =>
    if c = '\n' then cur :: splitLinesAux [] rest
    else splitLinesAux (cur ++ [c]) rest

/-- Model of `s.split('\n')`. -/
def splitLines (s : List Char) : List (List Char) :=
  splitLinesAux [] s

/-- JavaScript `s.split(sep)` for a single-character separator. -/
def splitOnCharAux (sep : Char) (cur : List Char) : List Char → List (List Char)
  | [] => [cur]
  | c :: rest =>
    if c = sep then cur :: splitOnCharAux sep [] rest
    else splitOnCharAux sep (cur ++ [c]) rest

/-- JavaScript `s.split(sep)` on `String`s. -/
def jsSplit (sep : Char) (s : String) : List String :=
  (splitOnCharAux sep [] s.data).map String.mk

/-- Process one complete line (`src/worker.ts:425-449`). Only the
`emitted` and `doneFlag` fields change; malformed JSON and non-`data: `
lines leave the state untouched. -/
def processLine (st : StreamState) (line : List Char) : StreamState :=
  if "data: ".data.isPrefixOf line then
    let dataStr := line.drop 6
    if dataStr = "[DONE]".data then { st with doneFlag := true }
    else
      match parseJson (String.mk dataStr) with
      | some dataJson =>
        match extractDelta dataJson with
        | some chunk => { st with emitted := st.emitted ++ [chunk] }
        | none => st
      | none => st
  else st

/-- One step of the `for (const line of lines)` loop; after `[DONE]` the
generator has returned, so later lines are not processed. -/
def processLineStep (s : StreamState) (l : List Char) : StreamState :=
  if s.doneFlag then s else processLine s l

/-- The `for (const line of lines)` loop. -/
def processLinesList (st : StreamState) (lines : List (List Char)) : StreamState :=
  lines.foldl processLineStep st

/-- One iteration of the read loop on a decoded chunk: append to the
buffer, split on `'\n'`, keep the last (possibly incomplete) line as the
new buffer, process the complete lines. After `[DONE]` the generator has
returned and reads no further chunks. -/
def feedChunk (st : StreamState) (chunk : List Char) : StreamState :=
  if st.doneFlag then st
  else
    let lines := splitLines (st.buffer ++ chunk)
    processLinesList { st with buffer := lines.getLastD [] } lines.dropLast

/-- Run the translator over a whole sequence of decoded chunks. -/
def runStream (chunks : List (List Char)) : StreamState :=
  chunks.foldl feedChunk initState

/-- One role/content entry of the session transcript. -/
structure Message where
  role : String
  content : String
deriving DecidableEq

/-- Effect of `chatStream` on the transcript plus its emitted deltas
(`src/worker.ts:352-458`): push the user message, run the read loop, and
in the `finally` block record `fullAssistantContent` as an assistant
message when it is non-empty (`if (fullAssistantContent)`). -/
def chatStreamModel (messages : List Message) (prompt : String)
    (chunks : List (List Char)) : List String × List Message :=
  let messages1 := messages ++ [{ role := "user", content := prompt }]
  let st := runStream chunks
  let fullAssistantContent := String.join st.emitted
  let messages2 :=
    if fullAssistantContent.isEmpty then messages1
    else messages1 ++ [{ role := "assistant", content := fullAssistantContent }]
  (st.emitted, messages2)

/-! ## Decimal and hexadecimal rendering of numbers

JavaScript `n.toString()` / `n.toString(16)` on the non-negative integers
that occur here (timestamps, buckets, bytes) print plain decimal /
lowercase hexadecimal digits. -/

/-- Decimal `n.toString()` for a non-negative integer. -/
def natDecimalString (n : Nat) : String :=
  if n = 0 then "0" else String.mk (((Nat.digits 10 n).map Nat.digitChar).reverse)

/-- Hexadecimal `n.toString(16)` for a non-negative integer (lowercase). -/
def natHexString (n : Nat) : String :=
  if n = 0 then "0" else String.mk (((Nat.digits 16 n).map Nat.digitChar).reverse)

/-- One digest byte as `b.toString(16).padStart(2, '0')`. -/
def hexByte (b : Nat) : String :=
  let s := natHexString b
  if s.length < 2 then "0" ++ s else s

/-- Hex encoding of a digest, as in `generateHmacSignature`
(`src/worker.ts:152-153`). -/
def hexOfBytes (bytes : List Nat) : String :=
  String.join (bytes.map hexByte)

/-- Raw HMAC-SHA256 as provided by `crypto.subtle` (key, data → digest
bytes); a primitive of the platform, kept abstract. -/
abbrev HmacRaw := String → String → List Nat

/-- Model of `generateHmacSignature` (`src/worker.ts:138-154`): raw HMAC-SHA256 of
the UTF-8 encoded key and data, hex-encoded byte by byte. -/
def generateHmacSignature (hmacRaw : HmacRaw) (key data : String) : String :=
  hexOfBytes (hmacRaw key data)

/-! ## UTF-8 and base64 (`base64Encode` / `base64Decode`,
`src/worker.ts:156-162`) -/

/-- UTF-8 encoding of one character (code point), as byte values. -/
def utf8EncodeChar (c : Char) : List Nat :=
  let n := c.toNat
  if n < 0x80 then [n]
  else if n < 0x800 then [0xc0 + n / 64, 0x80 + n % 64]
  else if n < 0x10000 then [0xe0 + n / 4096, 0x80 + (n / 64) % 64, 0x80 + n % 64]
  else [0xf0 + n / 262144, 0x80 + (n / 4096) % 64, 0x80 + (n / 64) % 64, 0x80 + n % 64]

/-- UTF-8 bytes of a string. -/
def utf8Bytes (s : String) : List Nat :=
  (s.data.map utf8EncodeChar).flatten

/-- The base64 alphabet. -/
def base64Alphabet : List Char :=
  "ABCDEFGHIJKLMNOPQRSTUVWXYZabcdefghijklmnopqrstuvwxyz0123456789+/".data

/-- Character for a 6-bit value. -/
def b64Char (n : Nat) : Char :=
  base64Alphabet.getD n '?'

/-- Base64 encode a byte list, with `=` padding. -/
def base64OfBytes : List Nat → String
  | b1 :: b2 :: b3 :: rest =>
    String.mk [b64Char (b1 / 4), b64Char (b1 % 4 * 16 + b2 / 16),
      b64Char (b2 % 16 * 4 + b3 / 64), b64Char (b3 % 64)] ++ base64OfBytes rest
  | [b1, b2] =>
    String.mk [b64Char (b1 / 4), b64Char (b1 % 4 * 16 + b2 / 16),
      b64Char (b2 % 16 * 4), '=']
  | [b1] => String.mk [b64Char (b1 / 4), b64Char (b1 % 4 * 16), '=', '=']
  | [] => ""

/-- Model of `base64Encode` (`src/worker.ts:156-158`):
`btoa(unescape(encodeURIComponent(str)))`, i.e. base64 of the UTF-8
bytes. -/
def base64Encode (s : String) : String :=
  base64OfBytes (utf8Bytes s)

/-- Value (6-bit) of a base64 alphabet character (`none` if not in the
alphabet). -/
def b64Value (c : Char) : Option Nat :=
  (base64Alphabet.zip (List.range 64)).foldl
    (fun acc p => if p.1 = c then some p.2 else acc) none

/-- Reassemble bytes from 6-bit values; a trailing group of 2 or 3 values
yields 1 or 2 bytes (low bits discarded), per forgiving-base64. -/
def b64Assemble : List Nat → List Nat
  | a :: b :: c :: d :: rest =>
    (a * 4 + b / 16) :: (b % 16 * 16 + c / 4) :: (c % 4 * 64 + d) :: b64Assemble rest
  | [a, b, c] => [a * 4 + b / 16, b % 16 * 16 + c / 4]
  | [a, b] => [a * 4 + b / 16]
  | _ => []

/-- Model of `atob`: the WHATWG forgiving-base64 decode. Strips ASCII whitespace,
removes up to two trailing `=` when the length is a multiple of four,
rejects a length `≡ 1 (mod 4)` and any character outside the alphabet. -/
def atobBytes (s : String) : Option (List Nat) :=
  let cs := s.data.filter (fun c => !(c = ' ' || c = '\t' || c = '\n' || c = '\x0c' || c = '\r'))
  let cs :=
    if cs.length % 4 = 0 then
      match cs.reverse with
      | '=' :: '=' :: r => r.reverse
      | '=' :: r => r.reverse
      | _ => cs
    else cs
  if cs.length % 4 = 1 then none
  else
    match (cs.map b64Value).allSome with
    | some vals => some (b64Assemble vals)
    | none => none

/-- Strict UTF-8 decoding of a byte list (`decodeURIComponent(escape _)`
throws on invalid sequences, surrogates and overlong forms). -/
def utf8DecodeAux (fuel : Nat) (bs : List Nat) : Option (List Char) :=
  match fuel with
  | 0 => match bs with | [] => some [] | _ :: _ => none
  | f + 1 =>
    match bs with
    | [] => some []
    | b1 :: rest =>
      if b1 < 0x80 then
        (utf8DecodeAux f rest).map (fun cs => Char.ofNat b1 :: cs)
      else if 0xc2 ≤ b1 && b1 ≤ 0xdf then
        match rest with
        | b2 :: rest2 =>
          if 0x80 ≤ b2 && b2 ≤ 0xbf then
            (utf8DecodeAux f rest2).map
              (fun cs => Char.ofNat ((b1 - 0xc0) * 64 + (b2 - 0x80)) :: cs)
          else none
        | [] => none
      else if 0xe0 ≤ b1 && b1 ≤ 0xef then
        match rest with
        | b2 :: b3 :: rest2 =>
          let lo2 := if b1 = 0xe0 then 0xa0 else 0x80
          let hi2 := if b1 = 0xed then 0x9f else 0xbf
          if lo2 ≤ b2 && b2 ≤ hi2 && 0x80 ≤ b3 && b3 ≤ 0xbf then
            (utf8DecodeAux f rest2).map
              (fun cs => Char.ofNat ((b1 - 0xe0) * 4096 + (b2 - 0x80) * 64 + (b3 - 0x80)) :: cs)
          else none
        | _ => none
      else if 0xf0 ≤ b1 && b1 ≤ 0xf4 then
        match rest with
        | b2 :: b3 :: b4 :: rest2 =>
          let lo2 := if b1 = 0xf0 then 0x90 else 0x80
          let hi2 := if b1 = 0xf4 then 0x8f else 0xbf
          if lo2 ≤ b2 && b2 ≤ hi2 && 0x80 ≤ b3 && b3 ≤ 0xbf && 0x80 ≤ b4 && b4 ≤ 0xbf then
            (utf8DecodeAux f rest2).map (fun cs =>
              Char.ofNat ((b1 - 0xf0) * 262144 + (b2 - 0x80) * 4096
                + (b3 - 0x80) * 64 + (b4 - 0x80)) :: cs)
          else none
        | _ => none
      else none

/-- Model of `base64Decode` (`src/worker.ts:160-162`):
`decodeURIComponent(escape(atob(str)))`, i.e. UTF-8 decoding of the
forgiving-base64 bytes; `none` models the thrown exception. -/
def base64Decode (s : String) : Option String :=
  match atobBytes s with
  | none => none
  | some bytes =>
    match utf8DecodeAux bytes.length bytes with
    | some cs => some (String.mk cs)
    | none => none

/-! ## The signer (`generateZaSignature`, `src/worker.ts:203-246`) -/

/-- Lexicographic (code-point) order on character lists: the outcome of
`a.localeCompare(b) < 0` on the ASCII identifiers compared here. -/
def localeLt : List Char → List Char → Bool
  | [], [] => false
  | [], _ :: _ => true
  | _ :: _, [] => false
  | a :: as, b :: bs => if a < b then true else if b < a then false else localeLt as bs

/-- Stable insertion of a key/value pair into a list sorted by key; models
one step of `Array.prototype.sort` with the comparator
`([a], [b]) => a.localeCompare(b)`. -/
def insertPairByKey (p : String × String) : List (String × String) → List (String × String)
  | [] => [p]
  | q :: qs => if localeLt p.1.data q.1.data then p :: q :: qs else q :: insertPairByKey p qs

/-- Sort key/value pairs by key. -/
def sortPairsByKey (l : List (String × String)) : List (String × String) :=
  l.foldr insertPairByKey []

/-- The 5-minute bucket: `Math.floor(parseInt(timestamp) / 300000)`
(`src/worker.ts:212`). `timestamp` is `Date.now().toString()` of a
non-negative integer, so `parseInt` round-trips and `Math.floor` of the
quotient is natural division. -/
def bucketOf (timestamp : Nat) : Nat :=
  timestamp / 300000

/-- The per-bucket HMAC key `w_key` (`src/worker.ts:212-213`): the
hex-encoded HMAC-SHA256 of the bucket's decimal string under the shared
secret. -/
def bucketKey (hmacRaw : HmacRaw) (salt_key : String) (timestamp : Nat) : String :=
  generateHmacSignature hmacRaw salt_key (natDecimalString (bucketOf timestamp))

/-- Model of `generateZaSignature` (`src/worker.ts:203-246`), with the clock
(`timestamp`) and random request id injected. Returns
`(signature, timestamp string)`; the URL parameter string (metadata plus
static browser-fingerprint fields) is not modelled, no claim refers to
it. `token` is unused by the signature computation, as in the source. -/
def generateZaSignature (hmacRaw : HmacRaw) (prompt token user_id salt_key : String)
    (timestamp : Nat) (request_id : String) : String × String :=
  let ts := natDecimalString timestamp
  let w_key := generateHmacSignature hmacRaw salt_key (natDecimalString (bucketOf timestamp))
  let payloadDict := [("timestamp", ts), ("requestId", request_id), ("user_id", user_id)]
  let sortedItems := sortPairsByKey payloadDict
  let sortedPayload := String.intercalate "," (sortedItems.map (fun kv => kv.1 ++ "," ++ kv.2))
  let promptB64 := base64Encode (jsTrimStr prompt)
  let dataToSign := sortedPayload ++ "|" ++ promptB64 ++ "|" ++ ts
  let signature := generateHmacSignature hmacRaw w_key dataToSign
  let _ := token
  (signature, ts)

/-- The canonical signing string as the spec words it: the metadata map
`{timestamp, requestId, user_id}` with keys sorted lexicographically
(`requestId < timestamp < user_id`), serialized as comma-separated
`key,value` pairs, then `|`, the base64 of the trimmed prompt, `|`, and
the timestamp. -/
def specCanonicalString (prompt user_id : String) (timestamp : Nat)
    (request_id : String) : String :=
  "requestId," ++ request_id ++ ",timestamp," ++ natDecimalString timestamp
    ++ ",user_id," ++ user_id
    ++ "|" ++ base64Encode (jsTrimStr prompt) ++ "|" ++ natDecimalString timestamp

/-! ## Auth middleware (`validateApiKey`, `src/worker.ts:90-124`) -/

/-- Outcome of the middleware: pass the request on, or answer 401 with
the given error message. -/
inductive AuthResult where
  | proceed
  | unauthorized (message : String)
deriving DecidableEq

/-- Did the middleware answer 401? -/
def AuthResult.denied : AuthResult → Bool
  | .proceed => false
  | .unauthorized _ => true

/-- Model of `validateApiKey` (`src/worker.ts:90-124`): skip the health check
path, then require an `Authorization` header, the `Bearer ` scheme, an
exact match with the configured server key when one is set, and the
`sk-` key format — in that order. -/
def validateApiKey (path : List Char) (authHeader : Option (List Char))
    (envApiKey : Option (List Char)) : AuthResult :=
  if path = "/".data then .proceed
  else
    match authHeader with
    | none => .unauthorized "Missing Authorization header"
    | some h =>
      if !("Bearer ".data.isPrefixOf h) then
        .unauthorized "Invalid Authorization header format. Expected: Bearer sk-..."
      else
        let apiKey := jsTrim (h.drop 7)
        if envApiKey.isSome && envApiKey ≠ some apiKey then
          .unauthorized "Invalid API key"
        else if !("sk-".data.isPrefixOf apiKey) then
          .unauthorized "Invalid API key format. Expected: sk-..."
        else .proceed

/-! ## JWT-style identity decoding (`initializeZChat`,
`src/worker.ts:313-328`) -/

/-- The identity fields `(user_id, user_name)` of the session after the
token-decoding block of `initializeZChat`, starting from the defaults
`("", "Guest")`. The token is split on `.`; with exactly three parts the
middle one (plus `"=="`) is base64-decoded and JSON-parsed, then
`payload.id || ""` and `(payload.email || "Guest").split('@')[0]` are
read. Any thrown error (bad base64, bad UTF-8, bad JSON, property access
on `null`, `.split` on a non-string) is caught, keeping the fields
assigned so far. -/
def decodeIdentity (token : String) : String × String :=
  let tokenParts := jsSplit '.' token
  if tokenParts.length = 3 then
    match base64Decode (tokenParts.getD 1 "" ++ "==") with
    | none => ("", "Guest")
    | some payloadStr =>
      match parseJson payloadStr with
      | none => ("", "Guest")
      | some .null => ("", "Guest")
      | some payload =>
        let uid :=
          match payload.getField "id" with
          | some v => if truthy v then jsToString v else ""
          | none => ""
        match payload.getField "email" with
        | some v =>
          if truthy v then
            match v with
            | .str e => (uid, (jsSplit '@' e).getD 0 "")
            | _ => (uid, "Guest")
          else (uid, "Guest")
        | none => (uid, "Guest")
  else ("", "Guest")

/-! ## Non-streaming OpenAI-compatible response
(`src/worker.ts:539-572`) -/

/-- One element of `choices`. -/
structure CompletionChoice where
  index : Nat
  message : Message
  finish_reason : String
deriving DecidableEq

/-- The `usage` block. -/
structure CompletionUsage where
  prompt_tokens : Nat
  completion_tokens : Nat
  total_tokens : Nat
deriving DecidableEq

/-- The deterministic part of the non-streaming response (the random id
and wall-clock `created` field are not modelled). -/
structure CompletionResponse where
  model : String
  choices : List CompletionChoice
  usage : CompletionUsage
deriving DecidableEq

/-- Assembly of the non-streaming response (`src/worker.ts:541-570`):
join the streamed chunks, estimate `Math.ceil(length / 4)` tokens per
message for the prompt and for the joined completion. -/
def buildNonStreamingResponse (modelName : String) (messages : List Message)
    (chunks : List String) : CompletionResponse :=
  let fullContent := String.join chunks
  let promptTokens := messages.foldl (fun sum msg => sum + (msg.content.length + 3) / 4) 0
  let completionTokens := (fullContent.length + 3) / 4
  { model := modelName
    choices := [{ index := 0
                  message := { role := "assistant", content := fullContent }
                  finish_reason := "stop" }]
    usage := { prompt_tokens := promptTokens
               completion_tokens := completionTokens
               total_tokens := promptTokens + completionTokens } }

/-! ## Lemmas about line splitting -/

theorem splitLinesAux_ne_nil (cur : List Char) (x : List Char) :
    splitLinesAux cur x ≠ [] := by
  induction x generalizing cur with
  | nil => simp [splitLinesAux]
  | cons c rest ih =>
    simp only [splitLinesAux]
    split
    · simp
    · exact ih _

/-- Splitting a concatenation: the complete lines of `x` are produced
as-is, and the residual (last) line of `x` carries over into `y`. -/
theorem splitLinesAux_append (x : List Char) :
    ∀ (cur y : List Char), ∃ init last, splitLinesAux cur x = init ++ [last]
      ∧ splitLinesAux cur (x ++ y) = init ++ splitLinesAux last y := by
  induction x with
  | nil =>
    intro cur y
    exact ⟨[], cur, rfl, rfl⟩
  | cons c rest ih =>
    intro cur y
    by_cases hc : c = '\n'
    · obtain ⟨init, last, h1, h2⟩ := ih [] y
      refine ⟨cur :: init, last, ?_, ?_⟩
      · simp [splitLinesAux, hc, h1]
      · simp [splitLinesAux, hc, h2]
    · obtain ⟨init, last, h1, h2⟩ := ih (cur ++ [c]) y
      refine ⟨init, last, ?_, ?_⟩
      · simp [splitLinesAux, hc, h1]
      · simp [splitLinesAux, hc, h2]

/-- A newline-free string is a single line. -/
theorem splitLinesAux_no_newline (x : List Char) :
    ∀ cur, '\n' ∉ x → splitLinesAux cur x = [cur ++ x] := by
  induction x with
  | nil => intro cur _; simp [splitLinesAux]
  | cons c rest ih =>
    intro cur h
    have hc : ¬ c = '\n' := fun hc => h (hc ▸ List.mem_cons_self c rest)
    have hrest : '\n' ∉ rest := fun hm => h (List.mem_cons_of_mem c hm)
    simp [splitLinesAux, hc, ih (cur ++ [c]) hrest]

/-- A newline-free accumulated residue can be moved into the input. -/
theorem splitLinesAux_absorb (cur : List Char) :
    ∀ (pre y : List Char), '\n' ∉ cur →
      splitLinesAux pre (cur ++ y) = splitLinesAux (pre ++ cur) y := by
  induction cur with
  | nil => intro pre y _; simp
  | cons c rest ih =>
    intro pre y h
    have hc : ¬ c = '\n' := fun hc => h (hc ▸ List.mem_cons_self c rest)
    have hrest : '\n' ∉ rest := fun hm => h (List.mem_cons_of_mem c hm)
    simp only [List.cons_append, splitLinesAux, hc, if_false, List.append_eq]
    rw [ih (pre ++ [c]) y hrest, List.append_assoc]
    rfl

/-- Every produced line is newline-free (given a newline-free residue). -/
theorem splitLinesAux_lines_clean (x : List Char) :
    ∀ cur, '\n' ∉ cur → ∀ l ∈ splitLinesAux cur x, '\n' ∉ l := by
  induction x with
  | nil =>
    intro cur hcur l hl
    simp [splitLinesAux] at hl
    exact hl ▸ hcur
  | cons c rest ih =>
    intro cur hcur l hl
    by_cases hc : c = '\n'
    · simp [splitLinesAux, hc] at hl
      rcases hl with h | h
      · exact h ▸ hcur
      · exact ih [] (by simp) l h
    · simp only [splitLinesAux, hc, if_false] at hl
      refine ih (cur ++ [c]) ?_ l hl
      intro hm
      rcases List.mem_append.1 hm with h | h
      · exact hcur h
      · simp at h
        exact hc h.symm

/-! ## Lemmas about the read loop state -/

theorem processLine_buffer (st : StreamState) (l : List Char) :
    (processLine st l).buffer = st.buffer := by
  unfold processLine
  dsimp only
  repeat' split
  all_goals rfl

theorem processLine_setBuf (st : StreamState) (b : List Char) (l : List Char) :
    processLine { st with buffer := b } l = { processLine st l with buffer := b } := by
  unfold processLine
  dsimp only
  repeat' split
  all_goals rfl

theorem processLineStep_setBuf (st : StreamState) (b : List Char) (l : List Char) :
    processLineStep { st with buffer := b } l = { processLineStep st l with buffer := b } := by
  rw [processLineStep, processLineStep]
  have hd : ({ st with buffer := b } : StreamState).doneFlag = st.doneFlag := rfl
  rw [hd]
  by_cases h : st.doneFlag
  · rw [if_pos h, if_pos h]
  · rw [if_neg h, if_neg h, processLine_setBuf]

theorem processLinesList_setBuf (b : List Char) (ls : List (List Char)) :
    ∀ st : StreamState,
      processLinesList { st with buffer := b } ls
        = { processLinesList st ls with buffer := b } := by
  induction ls with
  | nil => intro st; rfl
  | cons l ls ih =>
    intro st
    show processLinesList (processLineStep { st with buffer := b } l) ls = _
    rw [processLineStep_setBuf]
    exact ih (processLineStep st l)

theorem processLinesList_buffer (ls : List (List Char)) (st : StreamState) :
    (processLinesList st ls).buffer = st.buffer := by
  have h := processLinesList_setBuf st.buffer ls st
  simpa using congrArg StreamState.buffer h

theorem processLinesList_of_done (ls : List (List Char)) :
    ∀ st : StreamState, st.doneFlag = true → processLinesList st ls = st := by
  induction ls with
  | nil => intro st _; rfl
  | cons l ls ih =>
    intro st h
    show processLinesList (processLineStep st l) ls = st
    rw [processLineStep, if_pos h]
    exact ih st h

theorem feedChunk_of_done (st : StreamState) (c : List Char) (h : st.doneFlag = true) :
    feedChunk st c = st := by
  rw [feedChunk, if_pos h]

theorem foldl_feedChunk_of_done (chunks : List (List Char)) :
    ∀ st : StreamState, st.doneFlag = true → List.foldl feedChunk st chunks = st := by
  induction chunks with
  | nil => intro st _; rfl
  | cons c rest ih =>
    intro st h
    rw [List.foldl_cons, feedChunk_of_done st c h]
    exact ih st h

/-- The sentinel `[DONE]` sets the done flag and the flag is monotone, so after any
line list ending in the sentinel the generator has returned. -/
theorem processLinesList_done_sentinel (st : StreamState) (ls : List (List Char)) :
    (processLinesList st (ls ++ [("data: [DONE]").data])).doneFlag = true := by
  rw [processLinesList, List.foldl_append]
  show (processLineStep (processLinesList st ls) _).doneFlag = true
  set s := processLinesList st ls
  by_cases h : s.doneFlag
  · rw [processLineStep, if_pos h]; exact h
  · rw [processLineStep, if_neg h, processLine]
    rw [if_pos (by decide), if_pos (by decide)]

/-- Feeding the empty chunk to a state with a newline-free buffer does
nothing. -/
theorem feedChunk_nil (st : StreamState) (hb : '\n' ∉ st.buffer) :
    feedChunk st [] = st := by
  by_cases h : st.doneFlag
  · exact feedChunk_of_done st [] h
  · rw [feedChunk, if_neg h]
    show processLinesList
        { st with buffer := (splitLines (st.buffer ++ [])).getLastD [] }
        (splitLines (st.buffer ++ [])).dropLast = st
    rw [List.append_nil, splitLines, splitLinesAux_no_newline st.buffer [] hb]
    rfl

/-- The residual buffer is always newline-free. -/
theorem feedChunk_buffer_clean (st : StreamState) (c : List Char)
    (hb : '\n' ∉ st.buffer) : '\n' ∉ (feedChunk st c).buffer := by
  by_cases h : st.doneFlag
  · rw [feedChunk_of_done st c h]; exact hb
  · rw [feedChunk, if_neg h]
    rw [processLinesList_buffer]
    obtain ⟨init, last, h1, _⟩ := splitLinesAux_append (st.buffer ++ c) [] []
    show '\n' ∉ (splitLines (st.buffer ++ c)).getLastD []
    rw [splitLines, h1]
    rw [List.getLastD_concat]
    exact splitLinesAux_lines_clean (st.buffer ++ c) [] (by simp) last
      (h1 ▸ List.mem_append_right init (List.mem_singleton.2 rfl))

theorem setBuf_doneFlag (s : StreamState) (b : List Char) :
    ({ s with buffer := b } : StreamState).doneFlag = s.doneFlag := rfl

theorem setBuf_emitted (s : StreamState) (b : List Char) :
    ({ s with buffer := b } : StreamState).emitted = s.emitted := rfl

theorem processLinesList_append (st : StreamState) (xs ys : List (List Char)) :
    processLinesList st (xs ++ ys) = processLinesList (processLinesList st xs) ys :=
  List.foldl_append _ _ _ _

/-- Evaluation of `feedChunk` on a live state, written through the decomposition of the
split into complete lines plus residue. -/
theorem feedChunk_not_done (st : StreamState) (c : List Char) (hd : st.doneFlag = false)
    (init : List (List Char)) (last : List Char)
    (h : splitLines (st.buffer ++ c) = init ++ [last]) :
    feedChunk st c = { processLinesList st init with buffer := last } := by
  rw [feedChunk, if_neg (by simp [hd])]
  dsimp only
  rw [h, List.getLastD_concat, List.dropLast_concat, processLinesList_setBuf]

/-! ## Observational equivalence of read-loop states -/

/-- Same emissions and same termination status; the buffer only matters
while the generator is live. -/
def obsEq (s t : StreamState) : Prop :=
  s.emitted = t.emitted ∧ s.doneFlag = t.doneFlag
    ∧ (s.doneFlag = false → s.buffer = t.buffer)

theorem obsEq_refl (s : StreamState) : obsEq s s :=
  ⟨rfl, rfl, fun _ => rfl⟩

theorem obsEq_of_eq {s t : StreamState} (h : s = t) : obsEq s t :=
  h ▸ obsEq_refl s

theorem obsEq_trans {s t u : StreamState} (h1 : obsEq s t) (h2 : obsEq t u) : obsEq s u :=
  ⟨h1.1.trans h2.1, h1.2.1.trans h2.2.1,
    fun hd => (h1.2.2 hd).trans (h2.2.2 (h1.2.1 ▸ hd))⟩

/-- Splitting one chunk into two consecutive reads is observationally
invisible. -/
theorem feedChunk_feedChunk (st : StreamState) (a b : List Char) :
    obsEq (feedChunk (feedChunk st a) b) (feedChunk st (a ++ b)) := by
  by_cases hd : st.doneFlag = true
  · rw [feedChunk_of_done st a hd, feedChunk_of_done st b hd, feedChunk_of_done st (a ++ b) hd]
    exact obsEq_refl st
  · rw [Bool.not_eq_true] at hd
    obtain ⟨init, last, hS, hSapp⟩ := splitLinesAux_append (st.buffer ++ a) [] b
    obtain ⟨i2, l2, hK, -⟩ := splitLinesAux_append b last []
    have hlast_clean : '\n' ∉ last :=
      splitLinesAux_lines_clean (st.buffer ++ a) [] (by simp) last
        (hS ▸ List.mem_append_right init (List.mem_singleton.2 rfl))
    have hst1 : feedChunk st a = { processLinesList st init with buffer := last } :=
      feedChunk_not_done st a hd init last hS
    have hRHS : feedChunk st (a ++ b)
        = { processLinesList (processLinesList st init) i2 with buffer := l2 } := by
      rw [feedChunk_not_done st (a ++ b) hd (init ++ i2) l2 ?_, processLinesList_append]
      show splitLinesAux [] (st.buffer ++ (a ++ b)) = (init ++ i2) ++ [l2]
      rw [← List.append_assoc, hSapp, hK, List.append_assoc]
    set Q := processLinesList st init with hQ
    by_cases hq : Q.doneFlag = true
    · rw [hst1, feedChunk_of_done _ b ((setBuf_doneFlag Q last).trans hq), hRHS,
        processLinesList_of_done i2 Q hq]
      exact ⟨rfl, rfl, fun h => absurd ((setBuf_doneFlag Q last).symm.trans h ▸ hq) (by simp)⟩
    · rw [Bool.not_eq_true] at hq
      have hlines : splitLines (({ Q with buffer := last } : StreamState).buffer ++ b)
          = i2 ++ [l2] := by
        show splitLinesAux [] (last ++ b) = i2 ++ [l2]
        rw [splitLinesAux_absorb last [] b hlast_clean]
        simpa using hK
      rw [hst1, feedChunk_not_done _ b ((setBuf_doneFlag Q last).trans hq) i2 l2 hlines,
        processLinesList_setBuf, hRHS]
      exact obsEq_of_eq rfl

/-- The read loop over any chunk sequence is observationally equal to the
read loop over the single concatenated chunk (for any live starting state
with a newline-free buffer). -/
theorem foldl_feedChunk_flatten (chunks : List (List Char)) :
    ∀ st : StreamState, '\n' ∉ st.buffer →
      obsEq (List.foldl feedChunk st chunks) (feedChunk st chunks.flatten) := by
  induction chunks with
  | nil =>
    intro st hb
    rw [List.foldl_nil, List.flatten_nil, feedChunk_nil st hb]
    exact obsEq_refl st
  | cons c rest ih =>
    intro st hb
    rw [List.foldl_cons, List.flatten_cons]
    exact obsEq_trans (ih (feedChunk st c) (feedChunk_buffer_clean st c hb))
      (feedChunk_feedChunk st c rest.flatten)

/-- The buffer along any run stays newline-free. -/
theorem foldl_feedChunk_buffer_clean (chunks : List (List Char)) :
    ∀ st : StreamState, '\n' ∉ st.buffer →
      '\n' ∉ (List.foldl feedChunk st chunks).buffer := by
  induction chunks with
  | nil => intro st hb; exact hb
  | cons c rest ih =>
    intro st hb
    rw [List.foldl_cons]
    exact ih (feedChunk st c) (feedChunk_buffer_clean st c hb)

/-- The buffer along any run from the initial state stays newline-free. -/
theorem runStream_buffer_clean (chunks : List (List Char)) :
    '\n' ∉ (runStream chunks).buffer :=
  foldl_feedChunk_buffer_clean chunks initState (by simp [initState])

/-! ## The claims about the stream translator -/

/-- C1: delivering an upstream byte stream to `chatStream`'s read loop
split across arbitrary chunk boundaries — including boundaries mid-JSON
and mid-line — produces the same sequence of emitted text deltas (hence
the same final concatenation) as delivering the identical text as a
single chunk. -/
theorem claim_C1_chunk_boundaries (chunks : List (List Char)) :
    (runStream chunks).emitted = (runStream [chunks.flatten]).emitted
    ∧ String.join (runStream chunks).emitted
        = String.join (runStream [chunks.flatten]).emitted := by
  have h := foldl_feedChunk_flatten chunks initState (by simp [initState])
  have hsingle : runStream [chunks.flatten] = feedChunk initState chunks.flatten := by
    rw [runStream, List.foldl_cons, List.foldl_nil]
  have he : (runStream chunks).emitted = (runStream [chunks.flatten]).emitted := by
    rw [runStream, hsingle]
    exact h.1
  exact ⟨he, by rw [he]⟩

/-- C4: once the read loop has processed a complete `data: [DONE]` line,
no later line of that read — and no later chunk — contributes any
further emission. -/
theorem claim_C4_done_is_final (st : StreamState)
    (lines1 lines2 chunks : List (List Char)) :
    (List.foldl feedChunk
        (processLinesList st (lines1 ++ ("data: [DONE]").data :: lines2)) chunks).emitted
      = (processLinesList st (lines1 ++ [("data: [DONE]").data])).emitted := by
  have hsplit : lines1 ++ ("data: [DONE]").data :: lines2
      = (lines1 ++ [("data: [DONE]").data]) ++ lines2 := by simp
  rw [hsplit, processLinesList_append]
  have hD := processLinesList_done_sentinel st lines1
  rw [processLinesList_of_done lines2 _ hD, foldl_feedChunk_of_done chunks _ hD]

/-- C7: a complete `data: ` line whose payload is neither `[DONE]` nor
parseable JSON is skipped: the state is unchanged (nothing emitted, no
termination, no error value exists in the model), and processing of the
following lines continues as if the line were absent. -/
theorem claim_C7_malformed_line_skipped (st : StreamState) (line : List Char)
    (rest : List (List Char))
    (h1 : ("data: ").data.isPrefixOf line = true)
    (h2 : line.drop 6 ≠ ("[DONE]").data)
    (h3 : parseJson (String.mk (line.drop 6)) = none) :
    processLine st line = st
    ∧ processLinesList st (line :: rest) = processLinesList st rest := by
  have hp : processLine st line = st := by
    rw [processLine, if_pos h1]
    dsimp only
    rw [if_neg h2, h3]
  refine ⟨hp, ?_⟩
  show processLinesList (processLineStep st line) rest = processLinesList st rest
  rw [processLineStep]
  by_cases hd : st.doneFlag = true
  · rw [if_pos hd]
  · rw [if_neg hd, hp]

/-- Witness for C7: a `data: ` line cut off mid-JSON-object. -/
theorem claim_C7_witness :
    processLine initState (("data: \x7b\"data\": ").data) = initState
    ∧ processLinesList initState [("data: \x7b\"data\": ").data]
        = processLinesList initState [] :=
  claim_C7_malformed_line_skipped initState (("data: \x7b\"data\": ").data) []
    (by decide) (by decide) rfl

/-- C10: a final `data: ` line not terminated by `\n` before the stream
closes is never processed — appending it as a last chunk changes neither
the emitted deltas nor the recorded transcript, because the residual
line buffer is discarded when the reader reports completion. -/
theorem claim_C10_unterminated_line_dropped (messages : List Message) (prompt : String)
    (chunks : List (List Char)) (tail : List Char) (h : '\n' ∉ tail) :
    chatStreamModel messages prompt (chunks ++ [tail])
      = chatStreamModel messages prompt chunks := by
  have hemit : (runStream (chunks ++ [tail])).emitted = (runStream chunks).emitted := by
    rw [runStream, runStream, List.foldl_append, List.foldl_cons, List.foldl_nil]
    have hb : '\n' ∉ (List.foldl feedChunk initState chunks).buffer :=
      foldl_feedChunk_buffer_clean chunks initState (by simp [initState])
    set st := List.foldl feedChunk initState chunks
    by_cases hd : st.doneFlag = true
    · rw [feedChunk_of_done st tail hd]
    · rw [Bool.not_eq_true] at hd
      have hlines : splitLines (st.buffer ++ tail) = [] ++ [st.buffer ++ tail] := by
        rw [splitLines, List.nil_append,
          splitLinesAux_no_newline (st.buffer ++ tail) []
            (fun hm => (List.mem_append.1 hm).elim hb h)]
        simp
      rw [feedChunk_not_done st tail hd [] (st.buffer ++ tail) hlines]
      rfl
  unfold chatStreamModel
  dsimp only
  rw [hemit]

/-- Witness for C10: a trailing unterminated `data: ` line whose delta
`"X"` is not emitted. -/
theorem claim_C10_witness :
    '\n' ∉ (("data: \x7b\"data\": \x7b\"delta_content\": \"X\"\x7d\x7d").data)
    ∧ chatStreamModel [] "p"
        ([("data: \x7b\"data\": \x7b\"delta_content\": \"A\"\x7d\x7d\n").data]
          ++ [("data: \x7b\"data\": \x7b\"delta_content\": \"X\"\x7d\x7d").data])
      = chatStreamModel [] "p"
          [("data: \x7b\"data\": \x7b\"delta_content\": \"A\"\x7d\x7d\n").data] :=
  ⟨by decide,
    claim_C10_unterminated_line_dropped [] "p"
      [("data: \x7b\"data\": \x7b\"delta_content\": \"A\"\x7d\x7d\n").data]
      (("data: \x7b\"data\": \x7b\"delta_content\": \"X\"\x7d\x7d").data) (by decide)⟩

/-- C3 fails as stated: a stream that completes with zero deltas (for
example an immediate `[DONE]`) records no assistant entry at all, because
the source guards the push with `if (fullAssistantContent)`. -/
theorem claim_C3_cex :
    ((chatStreamModel [] "hi" [("data: [DONE]\n").data]).2.countP
      (fun m => m.role == "assistant")) ≠ 1 := by decide

/-- C3, amended: exactly one user entry is appended before the upstream
call; after stream completion exactly one assistant entry — whose content
is the concatenation of all emitted deltas — is appended when that
concatenation is non-empty, and none is appended when it is empty. -/
theorem claim_C3_amended (messages : List Message) (prompt : String)
    (chunks : List (List Char)) :
    (chatStreamModel messages prompt chunks).2
      = (messages ++ [{ role := "user", content := prompt }])
        ++ (if (String.join (chatStreamModel messages prompt chunks).1).isEmpty then []
            else [{ role := "assistant",
                    content := String.join (chatStreamModel messages prompt chunks).1 }]) := by
  show (chatStreamModel messages prompt chunks).2
      = (messages ++ [{ role := "user", content := prompt }])
        ++ (if (String.join (runStream chunks).emitted).isEmpty then []
            else [{ role := "assistant", content := String.join (runStream chunks).emitted }])
  unfold chatStreamModel
  by_cases h : (String.join (runStream chunks).emitted).isEmpty
  · simp [h]
  · simp [h]

/-! ## Decimal strings are injective (for the bucket-key claim) -/

theorem digitChar_injOn (a b : Nat) (ha : a < 10) (hb : b < 10)
    (h : Nat.digitChar a = Nat.digitChar b) : a = b := by
  have hfin : ∀ x y : Fin 10, Nat.digitChar x.1 = Nat.digitChar y.1 → x.1 = y.1 := by decide
  exact hfin ⟨a, ha⟩ ⟨b, hb⟩ h

theorem map_digitChar_inj (l1 : List Nat) :
    ∀ l2 : List Nat, (∀ x ∈ l1, x < 10) → (∀ x ∈ l2, x < 10) →
      l1.map Nat.digitChar = l2.map Nat.digitChar → l1 = l2 := by
  induction l1 with
  | nil =>
    intro l2 _ _ h
    cases l2 with
    | nil => rfl
    | cons b l2 => simp at h
  | cons a l1 ih =>
    intro l2 h1 h2 h
    cases l2 with
    | nil => simp at h
    | cons b l2 =>
      simp only [List.map_cons, List.cons.injEq] at h
      have hab := digitChar_injOn a b (h1 a (List.mem_cons_self a l1))
        (h2 b (List.mem_cons_self b l2)) h.1
      rw [hab, ih l2 (fun x hx => h1 x (List.mem_cons_of_mem a hx))
        (fun x hx => h2 x (List.mem_cons_of_mem b hx)) h.2]

theorem digits_bounded (n : Nat) : ∀ x ∈ Nat.digits 10 n, x < 10 :=
  fun x hx => Nat.digits_lt_base (by norm_num) hx

theorem natDecimalString_digits_eq {m n : Nat}
    (h : natDecimalString m = natDecimalString n) (hm : m ≠ 0) (hn : n ≠ 0) :
    Nat.digits 10 m = Nat.digits 10 n := by
  rw [natDecimalString, natDecimalString, if_neg hm, if_neg hn] at h
  have hdata := congrArg String.data h
  simp only at hdata
  have hrev := List.reverse_injective hdata
  exact map_digitChar_inj _ _ (digits_bounded m) (digits_bounded n) hrev

theorem natDecimalString_inj (m n : Nat) (h : natDecimalString m = natDecimalString n) :
    m = n := by
  by_cases hm : m = 0 <;> by_cases hn : n = 0
  · rw [hm, hn]
  · exfalso
    rw [natDecimalString, natDecimalString, if_pos hm, if_neg hn] at h
    have hdata := congrArg String.data h.symm
    simp only at hdata
    have : (Nat.digits 10 n).map Nat.digitChar = ['0'] := by
      have := congrArg List.reverse hdata
      simpa using this
    have hd : Nat.digits 10 n = [0] :=
      map_digitChar_inj _ [0] (digits_bounded n) (by simp) (by simpa using this)
    have := Nat.ofDigits_digits 10 n
    rw [hd] at this
    simp [Nat.ofDigits] at this
    exact hn this.symm
  · exfalso
    rw [natDecimalString, natDecimalString, if_neg hm, if_pos hn] at h
    have hdata := congrArg String.data h
    simp only at hdata
    have : (Nat.digits 10 m).map Nat.digitChar = ['0'] := by
      have := congrArg List.reverse hdata
      simpa using this
    have hd : Nat.digits 10 m = [0] :=
      map_digitChar_inj _ [0] (digits_bounded m) (by simp) (by simpa using this)
    have := Nat.ofDigits_digits 10 m
    rw [hd] at this
    simp [Nat.ofDigits] at this
    exact hm this.symm
  · have hd := natDecimalString_digits_eq h hm hn
    have h1 := Nat.ofDigits_digits 10 m
    have h2 := Nat.ofDigits_digits 10 n
    rw [hd] at h1
    exact h1.symm.trans h2

/-! ## C2: the signature formula -/

/-- The canonical string built by `generateZaSignature` coincides with
the spec's `sortedMetadata|base64Prompt|timestamp`. -/
theorem canonical_string_eq (prompt user_id : String) (timestamp : Nat)
    (request_id : String) :
    String.intercalate ","
        ((sortPairsByKey [("timestamp", natDecimalString timestamp),
          ("requestId", request_id), ("user_id", user_id)]).map
            (fun kv => kv.1 ++ "," ++ kv.2))
      ++ "|" ++ base64Encode (jsTrimStr prompt) ++ "|" ++ natDecimalString timestamp
    = specCanonicalString prompt user_id timestamp request_id := by
  have hsort : sortPairsByKey [("timestamp", natDecimalString timestamp),
      ("requestId", request_id), ("user_id", user_id)]
      = [("requestId", request_id), ("timestamp", natDecimalString timestamp),
         ("user_id", user_id)] := rfl
  rw [hsort, specCanonicalString]
  have hI : String.intercalate ","
      (([("requestId", request_id), ("timestamp", natDecimalString timestamp),
        ("user_id", user_id)]).map (fun kv => kv.1 ++ "," ++ kv.2))
      = (((("requestId" ++ "," ++ request_id) ++ ",")
          ++ ("timestamp" ++ "," ++ natDecimalString timestamp)) ++ ",")
        ++ ("user_id" ++ "," ++ user_id) := rfl
  rw [hI]
  apply String.ext
  simp only [String.data_append, List.append_assoc]
  rfl

/-- C2: the signature produced by `generateZaSignature` is the
hex-encoded HMAC-SHA256, under the bucket key, of the canonical string
`sortedMetadata|base64Prompt|timestamp`; the bucket key is itself the
(hex-encoded) HMAC-SHA256 of `stringify(floor(timestamp/300000))` under
the shared secret, exactly as `generateHmacSignature` produces keys. -/
theorem claim_C2_signature_formula (hmacRaw : HmacRaw)
    (prompt token user_id salt_key : String) (timestamp : Nat) (request_id : String) :
    (generateZaSignature hmacRaw prompt token user_id salt_key timestamp request_id).1
      = generateHmacSignature hmacRaw
          (generateHmacSignature hmacRaw salt_key (natDecimalString (bucketOf timestamp)))
          (specCanonicalString prompt user_id timestamp request_id) := by
  rw [← canonical_string_eq prompt user_id timestamp request_id]
  rfl

/-! ## C8: the bucket key and the 5-minute window -/

/-- C8 fails as stated: without an injectivity assumption on the keyed
hash, differing windows need not give differing bucket keys (a collision
of the hash function defeats it; here, a degenerate hash). -/
theorem claim_C8_cex :
    ¬ (∀ (hmacRaw : HmacRaw) (salt : String) (t1 t2 : Nat),
        bucketOf t1 ≠ bucketOf t2 →
        bucketKey hmacRaw salt t1 ≠ bucketKey hmacRaw salt t2) := by
  intro h
  exact h (fun _ _ => []) "" 0 300000 (by decide) rfl

/-- C8, amended: two timestamps in the same 5-minute window derive equal
bucket keys; timestamps in differing windows feed *different input
strings* to the keyed HMAC (so the bucket keys differ whenever the keyed
hash does not collide on those two strings). -/
theorem claim_C8_amended (hmacRaw : HmacRaw) (salt : String) (t1 t2 : Nat) :
    (bucketOf t1 = bucketOf t2 → bucketKey hmacRaw salt t1 = bucketKey hmacRaw salt t2)
    ∧ (bucketOf t1 ≠ bucketOf t2 →
        natDecimalString (bucketOf t1) ≠ natDecimalString (bucketOf t2)) := by
  constructor
  · intro h
    rw [bucketKey, bucketKey, h]
  · intro h hs
    exact h (natDecimalString_inj _ _ hs)

/-- Witness for C8 (amended): timestamps 5 and 7 share the window and the
key; timestamps 0 and 300000 are in different windows and give different
HMAC inputs. -/
theorem claim_C8_amended_witness :
    bucketKey (fun _ _ => ([] : List Nat)) "salt" 5
      = bucketKey (fun _ _ => ([] : List Nat)) "salt" 7
    ∧ natDecimalString (bucketOf 0) ≠ natDecimalString (bucketOf 300000) :=
  ⟨(claim_C8_amended (fun _ _ => []) "salt" 5 7).1 rfl,
   (claim_C8_amended (fun _ _ => []) "salt" 0 300000).2 (by decide)⟩

/-! ## C5: the auth middleware -/

theorem bearer_drop (k : List Char) : ("Bearer ".data ++ k).drop 7 = k := rfl

theorem bearer_isPrefixOf (k : List Char) :
    ("Bearer ".data).isPrefixOf ("Bearer ".data ++ k) = true := by
  simp [ List.isPrefixOf_iff_prefix]

/-- C5: on a non-root path, a missing `Authorization` header, a
non-`Bearer ` header, or a (trimmed) key without the `sk-` prefix is
answered 401; with no server key configured any `sk-` key proceeds; with
a server key configured a non-matching key is answered 401. -/
theorem claim_C5_validateApiKey :
    (∀ env path, path ≠ ("/").data → (validateApiKey path none env).denied = true)
    ∧ (∀ env path hdr, path ≠ ("/").data →
        ("Bearer ".data).isPrefixOf hdr = false →
        (validateApiKey path (some hdr) env).denied = true)
    ∧ (∀ env path k, path ≠ ("/").data →
        ("sk-".data).isPrefixOf (jsTrim k) = false →
        (validateApiKey path (some ("Bearer ".data ++ k)) env).denied = true)
    ∧ (∀ path k, path ≠ ("/").data →
        ("sk-".data).isPrefixOf (jsTrim k) = true →
        validateApiKey path (some ("Bearer ".data ++ k)) none = .proceed)
    ∧ (∀ path k serverKey, path ≠ ("/").data → jsTrim k ≠ serverKey →
        (validateApiKey path (some ("Bearer ".data ++ k)) (some serverKey)).denied = true) := by
  refine ⟨?_, ?_, ?_, ?_, ?_⟩
  · intro env path hpath
    rw [validateApiKey, if_neg hpath]
    rfl
  · intro env path hdr hpath h2
    rw [validateApiKey, if_neg hpath]
    simp [h2, AuthResult.denied]
  · intro env path k hpath hsk
    rw [validateApiKey, if_neg hpath]
    dsimp only
    rw [bearer_isPrefixOf, bearer_drop]
    cases env with
    | none => simp [hsk, AuthResult.denied]
    | some serverKey =>
      by_cases heq : serverKey = jsTrim k
      · simp [heq, hsk, AuthResult.denied]
      · simp [heq, hsk, AuthResult.denied]
  · intro path k hpath hsk
    rw [validateApiKey, if_neg hpath]
    dsimp only
    rw [bearer_isPrefixOf, bearer_drop]
    simp [hsk]
  · intro path k serverKey hpath hne
    rw [validateApiKey, if_neg hpath]
    dsimp only
    rw [bearer_isPrefixOf, bearer_drop]
    simp [Ne.symm hne, AuthResult.denied]

/-- Witness for C5: each branch at a concrete request. -/
theorem claim_C5_witness :
    (validateApiKey ("/chat").data none none).denied = true
    ∧ (validateApiKey ("/chat").data (some ("Token x").data) none).denied = true
    ∧ (validateApiKey ("/chat").data (some ("Bearer ".data ++ ("abc").data)) none).denied = true
    ∧ validateApiKey ("/chat").data (some ("Bearer ".data ++ ("sk-anything").data)) none
        = .proceed
    ∧ (validateApiKey ("/chat").data (some ("Bearer ".data ++ ("sk-a").data))
        (some ("sk-b").data)).denied = true :=
  ⟨claim_C5_validateApiKey.1 none _ (by decide),
   claim_C5_validateApiKey.2.1 none _ _ (by decide) (by decide),
   claim_C5_validateApiKey.2.2.1 none _ _ (by decide) (by decide),
   claim_C5_validateApiKey.2.2.2.1 _ _ (by decide) (by decide),
   claim_C5_validateApiKey.2.2.2.2 _ _ _ (by decide) (by decide)⟩

/-! ## C6: the non-streaming OpenAI-compatible response -/

/-- C6: with a single user message `"Hello"` and an
upstream whose translated stream yields exactly `["Hi", " there"]`, the
response carries `content = "Hi there"`, `finish_reason = "stop"`,
`completion_tokens = ceil(8/4) = 2`, `prompt_tokens = ceil(5/4) = 2` and
`total_tokens = 4`. -/
theorem claim_C6_nonstreaming_response :
    (runStream [("data: \x7b\"data\": \x7b\"delta_content\": \"Hi\"\x7d\x7d\n").data,
        ("data: \x7b\"data\": \x7b\"delta_content\": \" there\"\x7d\x7d\n").data,
        ("data: [DONE]\n").data]).emitted = ["Hi", " there"]
    ∧ buildNonStreamingResponse "glm-4.7" [{ role := "user", content := "Hello" }]
        ["Hi", " there"]
      = { model := "glm-4.7"
          choices := [{ index := 0
                        message := { role := "assistant", content := "Hi there" }
                        finish_reason := "stop" }]
          usage := { prompt_tokens := 2, completion_tokens := 2, total_tokens := 4 } } := by
  exact ⟨rfl, rfl⟩

/-! ## C9: JWT-style identity decoding -/

/-- C9 fails as stated: on a decode failure the session's display name is
the default `"Guest"`, not empty (`a.#.c` has a middle segment that
`atob` rejects). -/
theorem claim_C9_cex :
    base64Decode ("#==") = none
    ∧ decodeIdentity "a.#.c" = ("", "Guest")
    ∧ ("Guest" : String) ≠ "" :=
  ⟨rfl, rfl, by decide⟩

/-- C9, amended: any failure along the decode path (wrong number of
`.`-separated segments, undecodable middle segment, unparseable payload)
is non-fatal and leaves the user id empty and the display name at its
default `"Guest"`; on success with a non-empty string `email` claim the
display name is the portion of the email before `@`. -/
theorem claim_C9_amended :
    (∀ token : String, (jsSplit '.' token).length ≠ 3 →
        decodeIdentity token = ("", "Guest"))
    ∧ (∀ token : String, (jsSplit '.' token).length = 3 →
        base64Decode ((jsSplit '.' token).getD 1 "" ++ "==") = none →
        decodeIdentity token = ("", "Guest"))
    ∧ (∀ (token payloadStr : String), (jsSplit '.' token).length = 3 →
        base64Decode ((jsSplit '.' token).getD 1 "" ++ "==") = some payloadStr →
        parseJson payloadStr = none →
        decodeIdentity token = ("", "Guest"))
    ∧ (∀ (token payloadStr : String) (payload : Json) (e : String),
        (jsSplit '.' token).length = 3 →
        base64Decode ((jsSplit '.' token).getD 1 "" ++ "==") = some payloadStr →
        parseJson payloadStr = some payload →
        payload.getField "email" = some (.str e) →
        e.isEmpty = false →
        (decodeIdentity token).2 = (jsSplit '@' e).getD 0 "") := by
  refine ⟨?_, ?_, ?_, ?_⟩
  · intro token h
    rw [decodeIdentity, if_neg h]
  · intro token h hdec
    rw [decodeIdentity, if_pos h, hdec]
  · intro token payloadStr h hdec hparse
    rw [decodeIdentity, if_pos h, hdec]
    dsimp only
    rw [hparse]
  · intro token payloadStr payload e h hdec hparse hemail hne
    rw [decodeIdentity, if_pos h, hdec]
    dsimp only
    rw [hparse]
    cases payload with
    | null => simp [Json.getField] at hemail
    | bool b => simp [Json.getField] at hemail
    | num r => simp [Json.getField] at hemail
    | str s => simp [Json.getField] at hemail
    | arr es => simp [Json.getField] at hemail
    | obj fields =>
      dsimp only
      rw [hemail]
      simp [truthy, hne]

/-- Witness for C9 (amended): each failure branch at a concrete token,
and a successful decode of a JWT-style token whose payload carries
`id = "u1234"` and `email = "bob@example.com"`. -/
theorem claim_C9_amended_witness :
    decodeIdentity "abc" = ("", "Guest")
    ∧ decodeIdentity "q.!!.r" = ("", "Guest")
    ∧ decodeIdentity "a.ew.b" = ("", "Guest")
    ∧ (decodeIdentity "h.eyJpZCI6InUxMjM0IiwiZW1haWwiOiJib2JAZXhhbXBsZS5jb20ifQ.s").2
        = (jsSplit '@' "bob@example.com").getD 0 "" :=
  ⟨claim_C9_amended.1 "abc" (by decide),
   claim_C9_amended.2.1 "q.!!.r" (by decide) rfl,
   claim_C9_amended.2.2.1 "a.ew.b" "\x7b" (by decide) rfl rfl,
   claim_C9_amended.2.2.2 "h.eyJpZCI6InUxMjM0IiwiZW1haWwiOiJib2JAZXhhbXBsZS5jb20ifQ.s"
     ("\x7b\"id\":\"u1234\",\"email\":\"bob@example.com\"\x7d")
     (.obj [("id", .str "u1234"), ("email", .str "bob@example.com")])
     "bob@example.com" (by decide) rfl rfl rfl rfl⟩

end ZaiProxy
